import Mathlib

/-!
Verification of the looper utility core: protocol filtering of samples,
flag-file discovery, and dotfile initialization, shallowly embedded from
`looper/utils.py` and `looper/const.py`.
-/

namespace Looper

/-! ## Definitions -/

/-! ### String and path helpers, modelling `str` methods and `os.path` (POSIX) -/

/-- Model of `s.startswith(pre)` on Python strings. -/
def strStarts (pre s : String) : Bool :=
  pre.data.isPrefixOf s.data

/-- Model of `s.endswith(sfx)` on Python strings. -/
def strEnds (sfx s : String) : Bool :=
  sfx.data.reverse.isPrefixOf s.data.reverse

/-- Model of `os.path.join(a, b)` for two POSIX path components. -/
def pjoin (a b : String) : String :=
  if strStarts "/" b then b
  else if a = "" then b
  else if strEnds "/" a then a ++ b
  else a ++ "/" ++ b

/-- Model of `os.path.basename(p)`: the part of `p` after the last slash. -/
def basename (p : String) : String :=
  ⟨((p.data.reverse.takeWhile (fun c => c ≠ '/')).reverse)⟩

/-- Model of `os.path.splitext(p)[1]`: the extension of `p`, i.e. the suffix
of the basename starting at its last dot, provided some character of the
basename strictly before that dot is not itself a dot (so a leading run of
dots, as in a hidden file named `.flag`, yields no extension). -/
def extOf (p : String) : String :=
  let b := (basename p).data
  let rev := b.reverse
  let after := rev.takeWhile (fun c => c ≠ '.')
  let rest := rev.dropWhile (fun c => c ≠ '.')
  if rest = [] then ""
  else if (rest.drop 1).any (fun c => c ≠ '.') then ⟨'.' :: after.reverse⟩
  else ""

/-- Model of `os.path.isabs(p)` for POSIX paths. -/
def isAbs (p : String) : Bool :=
  strStarts "/" p

/-- Model of `os.path.dirname(p)`: the part of `p` before the last slash
(empty when `p` has no slash). -/
def dirname (p : String) : String :=
  let headRev := p.data.reverse.dropWhile (fun c => c ≠ '/')
  if headRev = [] then ""
  else if headRev.all (fun c => c = '/') then ⟨headRev.reverse⟩
  else ⟨(headRev.dropWhile (fun c => c = '/')).reverse⟩

/-! ### Protocol-name canonicalization

The test suite imports `alpha_cased` from `looper.utils`, but the function
body is not among the provided sources, so it is modelled from the spec. -/

/-- Modelled from the spec: `alpha_cased` (absent from the provided
`looper/utils.py`) canonicalizes a protocol name by uppercasing it and then
removing every non-alphanumeric character. -/
def alpha_cased (x : String) : String :=
  ⟨(x.data.map Char.toUpper).filter Char.isAlphanum⟩

/-! ### Data model -/

/-- A sample record: a `sample_name` and an optional `protocol` attribute.
Embeds the bare-bones `peppy.Sample` usage of the filtering and flag code
(the only attributes read are the name and the possibly-absent protocol). -/
structure Sample where
  name : String
  protocol : Option String
deriving DecidableEq

/-- The slice of a looper/peppy `Project` that the utility functions read:
a `results_folder` path and the collection of samples. -/
structure Project where
  results_folder : String
  samples : List Sample

/-- A snapshot of the directory tree: `dirs p` is `some entries` when `p`
is a directory whose listing (in `os.listdir` order) is `entries`, and
`none` when `p` is not an existing directory. -/
structure FS where
  dirs : String → Option (List String)

/-- Constant `FLAGS` from `looper/const.py`. -/
def FLAGS : List String := ["completed", "running", "failed", "waiting", "partial"]

/-- The errors raised by the embedded code: `invalidArgument` models the
call-contract violation error (`TypeError` in the source, `InvalidArgument`
in the spec), `assertionError` models a failed `assert`. -/
inductive LooperErr
  | invalidArgument
  | assertionError
deriving DecidableEq

/-- A value that is either a single string or a list of strings, modelling
Python arguments that may be one flag name or a collection of them. -/
inductive StrOrList
  | str (s : String)
  | list (l : List String)

/-- The list of names denoted by a `StrOrList`, modelling
`flags = [flags] if isinstance(flags, str) else list(flags)`. -/
def StrOrList.names : StrOrList → List String
  | .str s => [s]
  | .list l => l

/-- Python truthiness of an optional protocol spec: absent, the empty
string, and the empty collection are all falsy. -/
def specTruthy : Option StrOrList → Bool
  | none => false
  | some (.str s) => s ≠ ""
  | some (.list l) => l ≠ []

/-- The names of an optional protocol spec (empty when absent). -/
def specNames : Option StrOrList → List String
  | none => []
  | some sp => sp.names

/-! ### Sample filtering (`fetch_samples`)

The test suite imports `fetch_samples` from `looper.models`, a module not
among the provided sources, so the function is modelled from the spec. -/

/-- Modelled from the spec: `fetch_samples` (absent from the provided
sources). Raises `InvalidArgument` when both inclusion and exclusion are
supplied and non-empty; with neither, returns all samples unchanged;
inclusion retains exactly the samples whose canonical protocol is in the
canonicalized inclusion set (samples without a protocol are dropped);
exclusion retains the samples whose canonical protocol is not in the
canonicalized exclusion set together with all samples without a protocol. -/
def fetch_samples (prj : Project) (inclusion exclusion : Option StrOrList) :
    Except LooperErr (List Sample) :=
  if specTruthy inclusion ∧ specTruthy exclusion then
    .error .invalidArgument
  else if specTruthy inclusion then
    .ok (prj.samples.filter fun s =>
      match s.protocol with
      | none => false
      | some p => ((specNames inclusion).map alpha_cased).contains (alpha_cased p))
  else if specTruthy exclusion then
    .ok (prj.samples.filter fun s =>
      match s.protocol with
      | none => true
      | some p => !(((specNames exclusion).map alpha_cased).contains (alpha_cased p)))
  else
    .ok prj.samples

/-! ### Flag-file discovery (`fetch_flag_files`, `fetch_sample_flags`) -/

/-- Function `sample_folder` from `looper/utils.py`: the project's root
folder for the given sample, the join of the project's results folder and
the sample's name attribute. -/
def sample_folder (prj : Project) (s : Sample) : String :=
  pjoin prj.results_folder s.name

/-- Model of `glob.glob(os.path.join(folder, "*" + sfx))`: the entries of
`folder` whose name ends with the literal suffix `sfx` and does not start
with a dot (glob never matches hidden names), each joined to `folder`, in
listing order; an absent directory matches nothing. -/
def globStar (fs : FS) (folder sfx : String) : List String :=
  match fs.dirs folder with
  | none => []
  | some entries =>
    (entries.filter (fun f => strEnds sfx f && !strStarts "." f)).map (pjoin folder)

/-- Model of `glob.glob(os.path.join(root, "*", "*" + sfx))`: for each
non-hidden entry `d` of `root`, the matches of the suffix pattern directly
inside `root/d`. -/
def globStarStar (fs : FS) (root sfx : String) : List String :=
  match fs.dirs root with
  | none => []
  | some ds =>
    (ds.filter (fun d => !strStarts "." d)).flatMap
      (fun d => globStar fs (pjoin root d) sfx)

/-- Model of the `defaultdict(list)` assignment `m[k] = v`, on an
association list kept in key-insertion order. -/
def mapSet : List (String × List String) → String → List String →
    List (String × List String)
  | [], k, v => [(k, v)]
  | (k', v') :: rest, k, v =>
    if k' = k then (k', v) :: rest else (k', v') :: mapSet rest k v

/-- Model of the `defaultdict(list)` call `m[k].extend(v)`: accessing a
missing key inserts it bound to the empty list, and `extend` appends. -/
def mapExtend : List (String × List String) → String → List String →
    List (String × List String)
  | [], k, v => [(k, v)]
  | (k', v') :: rest, k, v =>
    if k' = k then (k', v' ++ v) :: rest else (k', v') :: mapExtend rest k v

/-- Function `fetch_flag_files` from `looper/utils.py`: find all flag file paths for
the given project, or below a bare results folder. Exactly one of the two
addressing modes must be supplied (a `TypeError`, the spec's
`InvalidArgument`, otherwise). A single string `flags` argument is wrapped
into a one-element list; each flag `f` is paired with the glob suffix
pattern `"*" + f + ".flag"`, modelled here by its literal suffix. -/
def fetch_flag_files (fs : FS) (prj : Option Project) (results_folder : String)
    (flags : StrOrList) : Except LooperErr (List (String × List String)) :=
  if ¬(prj.isSome ∨ results_folder ≠ "") ∨ (prj.isSome ∧ results_folder ≠ "") then
    .error .invalidArgument
  else
    let flag_suffix_pairs := flags.names.map (fun f => (f, f ++ ".flag"))
    match prj with
    | none =>
      .ok (flag_suffix_pairs.foldl
        (fun m fp => mapSet m fp.1 (globStarStar fs results_folder fp.2)) [])
    | some prj =>
      .ok (prj.samples.foldl
        (fun m s =>
          let folder := sample_folder prj s
          flag_suffix_pairs.foldl
            (fun m fp => mapExtend m fp.1 (globStar fs folder fp.2)) m)
        [])

/-- Function `fetch_sample_flags` from `looper/utils.py`: the flag files present for
a sample. When the sample folder is not an existing directory the result is
empty; otherwise the folder's entries are joined to it and kept when their
`splitext` extension is exactly `.flag` and their basename starts with the
pipeline name. -/
def fetch_sample_flags (fs : FS) (prj : Project) (sample : Sample)
    (pl_name : String) : List String :=
  let sfolder := sample_folder prj sample
  match fs.dirs sfolder with
  | none => []
  | some entries =>
    (entries.map (pjoin sfolder)).filter
      (fun x => extOf x == ".flag" && strStarts pl_name (basename x))

/-! ### Dotfile initialization (`init_dotfile`) -/

/-- A snapshot of on-disk files as path–content pairs; the dotfile code
only checks file existence and writes whole files. -/
abbrev Files : Type := List (String × String)

/-- Model of `os.path.exists(p)` against a `Files` snapshot. -/
def fsExists (fs : Files) (p : String) : Bool :=
  (List.map Prod.fst fs).contains p

/-- Model of `open(p, "w")` followed by writing `c`: overwrite the entry
for `p` when present, otherwise append a new one. -/
def fsWrite : Files → String → String → Files
  | [], p, c => [(p, c)]
  | (p', c') :: rest, p, c =>
    if p' = p then (p, c) :: rest else (p', c') :: fsWrite rest p c

/-- Modelled from the spec and the looper constants: the YAML text
`yaml.dump` produces for the one-entry mapping from the dotfile config-path
key (`DOTFILE_CFG_PTH_KEY`, absent from the provided `const.py`) to the
config path. -/
def dotfileYaml (cfg_path : String) : String :=
  "config_file_path: " ++ cfg_path

/-- The config path `init_dotfile` resolves: `cfg_path` itself when
absolute, otherwise joined to the directory of `path`. -/
def resolveCfg (path cfg_path : String) : String :=
  if isAbs cfg_path then cfg_path else pjoin (dirname path) cfg_path

/-- Function `init_dotfile` from `looper/utils.py`: initialize the looper dotfile at
`path` pointing at `cfg_path`. Returns `false` and leaves the filesystem
untouched when `path` already exists; fails the `assert` when the resolved
config path does not exist; otherwise writes the dotfile and returns
`true`. -/
def init_dotfile (fs : Files) (path cfg_path : String) :
    Except LooperErr (Bool × Files) :=
  if fsExists fs path then .ok (false, fs)
  else
    let cfg := resolveCfg path cfg_path
    if fsExists fs cfg then .ok (true, fsWrite fs path (dotfileYaml cfg))
    else .error .assertionError

/-! ## Theorems -/

theorem toNat_ofNat_of_valid {n : Nat} (h : n.isValidChar) :
    (Char.ofNat n).toNat = n := by
  unfold Char.ofNat
  rw [dif_pos h]
  rfl

theorem toUpper_toUpper (c : Char) : c.toUpper.toUpper = c.toUpper := by
  unfold Char.toUpper
  by_cases h : c.toNat ≥ 97 ∧ c.toNat ≤ 122
  · rw [if_pos h]
    have hv : (c.toNat - 32).isValidChar := Or.inl (by omega)
    have ht : (Char.ofNat (c.toNat - 32)).toNat = c.toNat - 32 :=
      toNat_ofNat_of_valid hv
    rw [if_neg]
    rw [ht]
    omega
  · rw [if_neg h, if_neg h]

theorem map_eq_self_of_fixed {α : Type} (f : α → α) :
    ∀ (l : List α), (∀ a ∈ l, f a = a) → l.map f = l
  | [], _ => rfl
  | a :: t, h => by
    simp only [List.map_cons]
    rw [h a (List.mem_cons_self a t),
      map_eq_self_of_fixed f t (fun b hb => h b (List.mem_cons_of_mem a hb))]

/-- C8: protocol-name canonicalization (uppercase, then remove all
non-alphanumeric characters) is idempotent: `canon (canon x) = canon x`. -/
theorem alpha_cased_idem (x : String) :
    alpha_cased (alpha_cased x) = alpha_cased x := by
  unfold alpha_cased
  congr 1
  have h2 : ((x.data.map Char.toUpper).filter Char.isAlphanum).map Char.toUpper
      = (x.data.map Char.toUpper).filter Char.isAlphanum := by
    apply map_eq_self_of_fixed
    intro c hc
    obtain ⟨d, _, rfl⟩ := List.mem_map.mp (List.mem_of_mem_filter hc)
    exact toUpper_toUpper d
  rw [h2]
  apply List.filter_eq_self.mpr
  intro c hc
  exact List.of_mem_filter hc

/-! ### The protocol filter -/

/-- Claim C3: for every sample collection and every pair of protocol specs
where both the inclusion and the exclusion argument are supplied and
non-empty, the filter raises `InvalidArgument` and never returns a
result. -/
theorem fetch_samples_both_specs_raise (prj : Project)
    (inc exc : Option StrOrList)
    (h1 : specTruthy inc = true) (h2 : specTruthy exc = true) :
    fetch_samples prj inc exc = .error .invalidArgument := by
  unfold fetch_samples
  rw [if_pos ⟨h1, h2⟩]

theorem fetch_samples_both_specs_raise_witness :
    specTruthy (some (.str "ATAC-Seq")) = true ∧
    specTruthy (some (.list ["WGBS", "RRBS"])) = true ∧
    fetch_samples ⟨"out", [⟨"atac_A", some "ATAC-Seq"⟩]⟩
        (some (.str "ATAC-Seq")) (some (.list ["WGBS", "RRBS"])) =
      .error .invalidArgument :=
  ⟨by decide, by decide,
    fetch_samples_both_specs_raise ⟨"out", [⟨"atac_A", some "ATAC-Seq"⟩]⟩
      (some (.str "ATAC-Seq")) (some (.list ["WGBS", "RRBS"]))
      (by decide) (by decide)⟩

/-- Claim C5: with neither an inclusion nor an exclusion spec (or with both
empty), the filter returns the sample collection itself, unchanged and in
the same order. -/
theorem fetch_samples_no_filter_identity (prj : Project)
    (inc exc : Option StrOrList)
    (h1 : specTruthy inc = false) (h2 : specTruthy exc = false) :
    fetch_samples prj inc exc = .ok prj.samples := by
  unfold fetch_samples
  rw [if_neg (fun hc => by rw [h1] at hc; exact absurd hc.1 (by simp)),
    if_neg (fun hc => by rw [h1] at hc; exact absurd hc (by simp)),
    if_neg (fun hc => by rw [h2] at hc; exact absurd hc (by simp))]

theorem fetch_samples_no_filter_identity_witness :
    specTruthy none = false ∧
    specTruthy (some (.list [])) = false ∧
    fetch_samples ⟨"out", [⟨"atac_A", some "ATAC-Seq"⟩, ⟨"p", none⟩]⟩
        none (some (.list [])) =
      .ok [⟨"atac_A", some "ATAC-Seq"⟩, ⟨"p", none⟩] :=
  ⟨by decide, by decide,
    fetch_samples_no_filter_identity
      ⟨"out", [⟨"atac_A", some "ATAC-Seq"⟩, ⟨"p", none⟩]⟩
      none (some (.list [])) (by decide) (by decide)⟩

theorem inclusion_pred_iff (inc : StrOrList) (s : Sample) :
    ((match s.protocol with
      | none => false
      | some p =>
        ((specNames (some inc)).map alpha_cased).contains (alpha_cased p)) = true)
    ↔ ∃ p, s.protocol = some p ∧ alpha_cased p ∈ inc.names.map alpha_cased := by
  cases hproto : s.protocol with
  | none => simp
  | some p => simp [specNames, List.contains, List.elem_iff]

theorem exclusion_pred_iff (exc : StrOrList) (s : Sample) :
    ((match s.protocol with
      | none => true
      | some p =>
        !(((specNames (some exc)).map alpha_cased).contains (alpha_cased p))) = true)
    ↔ (s.protocol = none ∨
      ∃ p, s.protocol = some p ∧ alpha_cased p ∉ exc.names.map alpha_cased) := by
  cases hproto : s.protocol with
  | none => simp
  | some p => simp [specNames, List.contains, List.elem_iff]

/-- Claim C1: under a non-empty inclusion spec (and no exclusion), the
filter returns exactly the subsequence of samples whose canonicalized
protocol is a member of the canonicalized inclusion set; a sample lacking
a protocol attribute is never retained. -/
theorem fetch_samples_inclusion_characterization (prj : Project)
    (inc : StrOrList) (h : specTruthy (some inc) = true) :
    ∃ r, fetch_samples prj (some inc) none = .ok r ∧
      r.Sublist prj.samples ∧
      ∀ s, s ∈ r ↔ s ∈ prj.samples ∧
        ∃ p, s.protocol = some p ∧ alpha_cased p ∈ inc.names.map alpha_cased := by
  unfold fetch_samples
  rw [if_neg (fun hc => by exact absurd hc.2 (by simp [specTruthy])), if_pos h]
  refine ⟨_, rfl, List.filter_sublist _, fun s => ?_⟩
  rw [List.mem_filter, inclusion_pred_iff]

theorem fetch_samples_inclusion_characterization_witness :
    specTruthy (some (.str "atacseq")) = true ∧
    ∃ r, fetch_samples
        ⟨"out", [⟨"atac_A", some "ATAC-Seq"⟩, ⟨"chip1", some "ChIP-Seq"⟩,
          ⟨"noproto", none⟩]⟩ (some (.str "atacseq")) none = .ok r ∧
      r.Sublist [⟨"atac_A", some "ATAC-Seq"⟩, ⟨"chip1", some "ChIP-Seq"⟩,
        ⟨"noproto", none⟩] ∧
      ∀ s, s ∈ r ↔ s ∈ [(⟨"atac_A", some "ATAC-Seq"⟩ : Sample),
          ⟨"chip1", some "ChIP-Seq"⟩, ⟨"noproto", none⟩] ∧
        ∃ p, s.protocol = some p ∧
          alpha_cased p ∈ (StrOrList.str "atacseq").names.map alpha_cased :=
  ⟨by decide,
    fetch_samples_inclusion_characterization
      ⟨"out", [⟨"atac_A", some "ATAC-Seq"⟩, ⟨"chip1", some "ChIP-Seq"⟩,
        ⟨"noproto", none⟩]⟩ (.str "atacseq") (by decide)⟩

/-- Claim C2: under a non-empty exclusion spec (and no inclusion), the
filter returns exactly the subsequence of samples whose canonicalized
protocol is not a member of the canonicalized exclusion set, together with
every sample lacking a protocol attribute. -/
theorem fetch_samples_exclusion_characterization (prj : Project)
    (exc : StrOrList) (h : specTruthy (some exc) = true) :
    ∃ r, fetch_samples prj none (some exc) = .ok r ∧
      r.Sublist prj.samples ∧
      ∀ s, s ∈ r ↔ s ∈ prj.samples ∧
        (s.protocol = none ∨
          ∃ p, s.protocol = some p ∧
            alpha_cased p ∉ exc.names.map alpha_cased) := by
  unfold fetch_samples
  rw [if_neg (fun hc => by exact absurd hc.1 (by simp [specTruthy])),
    if_neg (fun hc => by exact absurd hc (by simp [specTruthy])), if_pos h]
  refine ⟨_, rfl, List.filter_sublist _, fun s => ?_⟩
  rw [List.mem_filter, exclusion_pred_iff]

theorem fetch_samples_exclusion_characterization_witness :
    specTruthy (some (.list ["ChIP-Seq"])) = true ∧
    ∃ r, fetch_samples ⟨"out", [⟨"noproto", none⟩]⟩
        none (some (.list ["ChIP-Seq"])) = .ok r ∧
      r.Sublist [⟨"noproto", none⟩] ∧
      ∀ s, s ∈ r ↔ s ∈ [(⟨"noproto", none⟩ : Sample)] ∧
        (s.protocol = none ∨
          ∃ p, s.protocol = some p ∧
            alpha_cased p ∉ (StrOrList.list ["ChIP-Seq"]).names.map alpha_cased) :=
  ⟨by decide,
    fetch_samples_exclusion_characterization ⟨"out", [⟨"noproto", none⟩]⟩
      (.list ["ChIP-Seq"]) (by decide)⟩

/-! ### The flag aggregator -/

/-- Claim C4: `fetch_flag_files` raises `InvalidArgument` exactly when its
addressing-mode contract is violated: it fails when neither a project nor
a (non-empty) results-root path is given and when both are given, and it
returns a result when exactly one of the two is supplied. -/
theorem fetch_flag_files_addressing_contract (fs : FS) (prj : Option Project)
    (rf : String) (flags : StrOrList) :
    (((prj = none ∧ rf = "") ∨ (prj ≠ none ∧ rf ≠ "")) →
      fetch_flag_files fs prj rf flags = .error .invalidArgument) ∧
    (((prj = none ∧ rf ≠ "") ∨ (prj ≠ none ∧ rf = "")) →
      ∃ r, fetch_flag_files fs prj rf flags = .ok r) := by
  constructor
  · rintro (⟨h1, h2⟩ | ⟨h1, h2⟩)
    · subst h1; subst h2
      unfold fetch_flag_files
      rw [if_pos (Or.inl (fun hc => by simp at hc))]
    · obtain ⟨p, rfl⟩ := Option.ne_none_iff_exists'.mp h1
      unfold fetch_flag_files
      rw [if_pos (Or.inr ⟨rfl, h2⟩)]
  · rintro (⟨h1, h2⟩ | ⟨h1, h2⟩)
    · subst h1
      unfold fetch_flag_files
      rw [if_neg ?hc]
      case hc =>
        rintro (hc | hc)
        · exact hc (Or.inr h2)
        · exact absurd hc.1 (by simp)
      exact ⟨_, rfl⟩
    · obtain ⟨p, rfl⟩ := Option.ne_none_iff_exists'.mp h1
      subst h2
      unfold fetch_flag_files
      rw [if_neg ?hc2]
      case hc2 =>
        rintro (hc | hc)
        · exact hc (Or.inl rfl)
        · exact hc.2 rfl
      exact ⟨_, rfl⟩

theorem fetch_flag_files_addressing_contract_witness :
    ((none = (none : Option Project) ∧ "" = "") ∨
      ((none : Option Project) ≠ none ∧ "" ≠ "")) ∧
    fetch_flag_files ⟨fun _ => none⟩ none "" (.list FLAGS) =
      .error .invalidArgument :=
  ⟨Or.inl ⟨rfl, rfl⟩,
    (fetch_flag_files_addressing_contract ⟨fun _ => none⟩ none "" (.list FLAGS)).1
      (Or.inl ⟨rfl, rfl⟩)⟩

/-- Claim C9: passing a single string as the `flags` argument of
`fetch_flag_files` behaves exactly like passing the singleton list of that
flag name; the string is never iterated character by character. -/
theorem fetch_flag_files_str_flags_singleton (fs : FS) (prj : Option Project)
    (rf : String) (s : String) :
    fetch_flag_files fs prj rf (.str s) =
      fetch_flag_files fs prj rf (.list [s]) := rfl

theorem takeWhile_all {α : Type} (p : α → Bool) :
    ∀ l : List α, (∀ a ∈ l, p a = true) → l.takeWhile p = l
  | [], _ => rfl
  | a :: t, h => by
    rw [List.takeWhile_cons, if_pos (h a (List.mem_cons_self a t)),
      takeWhile_all p t (fun b hb => h b (List.mem_cons_of_mem a hb))]

theorem basename_no_slash (f : String) (h : '/' ∉ f.data) : basename f = f := by
  unfold basename
  rw [takeWhile_all _ _ ?all, List.reverse_reverse]
  case all =>
    intro a ha
    simp only [decide_eq_true_eq]
    intro hEq
    exact h (hEq ▸ List.mem_reverse.mp ha)

theorem strEnds_slash {a : String} (h : strEnds "/" a = true) :
    ∃ t, a.data.reverse = '/' :: t := by
  unfold strEnds at h
  have hs : ("/" : String).data.reverse = ['/'] := rfl
  rw [hs] at h
  cases hr : a.data.reverse with
  | nil => rw [hr] at h; simp [List.isPrefixOf] at h
  | cons b t =>
    rw [hr] at h
    simp [List.isPrefixOf] at h
    exact ⟨t, by rw [h]⟩

theorem basename_pjoin (a f : String) (h : '/' ∉ f.data) :
    basename (pjoin a f) = f := by
  unfold pjoin
  by_cases h1 : strStarts "/" f = true
  · rw [if_pos h1]; exact basename_no_slash f h
  · rw [if_neg h1]
    by_cases h2 : a = ""
    · rw [if_pos h2]; exact basename_no_slash f h
    · rw [if_neg h2]
      have hall : ∀ c ∈ f.data.reverse, (fun c => decide (c ≠ '/')) c = true := by
        intro c hc
        simp only [decide_eq_true_eq]
        intro hEq
        exact h (hEq ▸ List.mem_reverse.mp hc)
      by_cases h3 : strEnds "/" a = true
      · rw [if_pos h3]
        obtain ⟨t, ht⟩ := strEnds_slash h3
        unfold basename
        have hd : (a ++ f).data.reverse = f.data.reverse ++ ('/' :: t) := by
          rw [String.data_append, List.reverse_append, ht]
        rw [hd, List.takeWhile_append_of_pos hall, List.takeWhile_cons,
          if_neg (by simp), List.append_nil, List.reverse_reverse]
      · rw [if_neg h3]
        unfold basename
        have hd : (a ++ "/" ++ f).data.reverse
            = f.data.reverse ++ ('/' :: a.data.reverse) := by
          rw [String.data_append, String.data_append]
          have hslash : ("/" : String).data = ['/'] := rfl
          rw [hslash]
          simp [List.reverse_append]
        rw [hd, List.takeWhile_append_of_pos hall, List.takeWhile_cons,
          if_neg (by simp), List.append_nil, List.reverse_reverse]

theorem extOf_eq_of_basename_eq {p q : String} (h : basename p = basename q) :
    extOf p = extOf q := by
  unfold extOf
  rw [h]

/-- Claim C6: for an existing sample folder, `fetch_sample_flags` returns
exactly the folder's immediate children whose `splitext` extension is
exactly `.flag` and whose filename starts with the given pipeline name,
joined to the folder, in listing order. -/
theorem fetch_sample_flags_filter_spec (fs : FS) (prj : Project)
    (sample : Sample) (pl_name : String) (entries : List String)
    (hdir : fs.dirs (sample_folder prj sample) = some entries)
    (hnames : ∀ f ∈ entries, '/' ∉ f.data) :
    fetch_sample_flags fs prj sample pl_name =
      (entries.filter
        (fun f => extOf f == ".flag" && strStarts pl_name f)).map
        (pjoin (sample_folder prj sample)) := by
  simp only [fetch_sample_flags, hdir]
  rw [List.filter_map]
  congr 1
  apply List.filter_congr
  intro f hf
  have hb : basename (pjoin (sample_folder prj sample) f) = f :=
    basename_pjoin _ f (hnames f hf)
  have hbf : basename f = f := basename_no_slash f (hnames f hf)
  have he : extOf (pjoin (sample_folder prj sample) f) = extOf f :=
    extOf_eq_of_basename_eq (by rw [hb, hbf])
  show (extOf (pjoin (sample_folder prj sample) f) == ".flag"
      && strStarts pl_name (basename (pjoin (sample_folder prj sample) f)))
    = (extOf f == ".flag" && strStarts pl_name f)
  rw [hb, he]

theorem fetch_sample_flags_filter_spec_witness :
    (FS.mk (fun p => if p = "out/s1" then
        some ["mypipe_completed.flag", "otherpipe_completed.flag",
          "mypipe_notes.txt", ".flag"] else none)).dirs
        (sample_folder ⟨"out", [⟨"s1", none⟩]⟩ ⟨"s1", none⟩) =
      some ["mypipe_completed.flag", "otherpipe_completed.flag",
        "mypipe_notes.txt", ".flag"] ∧
    (∀ f ∈ ["mypipe_completed.flag", "otherpipe_completed.flag",
        "mypipe_notes.txt", ".flag"], '/' ∉ f.data) ∧
    fetch_sample_flags
        (FS.mk (fun p => if p = "out/s1" then
          some ["mypipe_completed.flag", "otherpipe_completed.flag",
            "mypipe_notes.txt", ".flag"] else none))
        ⟨"out", [⟨"s1", none⟩]⟩ ⟨"s1", none⟩ "mypipe" =
      ["out/s1/mypipe_completed.flag"] :=
  ⟨by decide, by decide,
    (fetch_sample_flags_filter_spec
        (FS.mk (fun p => if p = "out/s1" then
          some ["mypipe_completed.flag", "otherpipe_completed.flag",
            "mypipe_notes.txt", ".flag"] else none))
        ⟨"out", [⟨"s1", none⟩]⟩ ⟨"s1", none⟩ "mypipe"
        ["mypipe_completed.flag", "otherpipe_completed.flag",
          "mypipe_notes.txt", ".flag"]
        (by decide) (by decide)).trans (by decide)⟩

/-- Claim C7: when the sample's results folder does not exist on disk,
`fetch_sample_flags` returns the empty sequence and signals no error. -/
theorem fetch_sample_flags_missing_folder (fs : FS) (prj : Project)
    (sample : Sample) (pl_name : String)
    (h : fs.dirs (sample_folder prj sample) = none) :
    fetch_sample_flags fs prj sample pl_name = [] := by
  simp only [fetch_sample_flags, h]

theorem fetch_sample_flags_missing_folder_witness :
    (FS.mk (fun _ => none)).dirs
        (sample_folder ⟨"out", [⟨"s1", none⟩]⟩ ⟨"s1", none⟩) = none ∧
    fetch_sample_flags (FS.mk (fun _ => none))
        ⟨"out", [⟨"s1", none⟩]⟩ ⟨"s1", none⟩ "mypipe" = [] :=
  ⟨rfl,
    fetch_sample_flags_missing_folder (FS.mk (fun _ => none))
      ⟨"out", [⟨"s1", none⟩]⟩ ⟨"s1", none⟩ "mypipe" rfl⟩

/-! ### Dotfile initialization -/

/-- Claim C10: `init_dotfile` never overwrites an existing dotfile: when the
target path exists it returns `false` with the filesystem (hence the file's
contents) unchanged; and the dotfile is written with `true` returned exactly
when the target path does not exist and the resolved config path exists. -/
theorem init_dotfile_no_overwrite (fs : Files) (path cfg_path : String) :
    (fsExists fs path = true → init_dotfile fs path cfg_path = .ok (false, fs)) ∧
    (∀ b fs2, init_dotfile fs path cfg_path = .ok (b, fs2) → b = true →
      fsExists fs path = false ∧
      fsExists fs (resolveCfg path cfg_path) = true ∧
      fs2 = fsWrite fs path (dotfileYaml (resolveCfg path cfg_path))) ∧
    (fsExists fs path = false → fsExists fs (resolveCfg path cfg_path) = true →
      init_dotfile fs path cfg_path =
        .ok (true, fsWrite fs path (dotfileYaml (resolveCfg path cfg_path)))) := by
  refine ⟨?_, ?_, ?_⟩
  · intro h1
    unfold init_dotfile
    rw [if_pos h1]
  · intro b fs2 heq hb
    subst hb
    unfold init_dotfile at heq
    by_cases h1 : fsExists fs path = true
    · rw [if_pos h1] at heq
      simp at heq
    · rw [if_neg h1] at heq
      by_cases h2 : fsExists fs (resolveCfg path cfg_path) = true
      · rw [if_pos h2] at heq
        simp at heq
        exact ⟨by simpa using h1, h2, heq.symm⟩
      · rw [if_neg h2] at heq
        simp at heq
  · intro h1 h2
    unfold init_dotfile
    rw [if_neg (by simp [h1]), if_pos h2]

theorem init_dotfile_no_overwrite_witness :
    fsExists [("/proj/.looper.yaml", "old-content")] "/proj/.looper.yaml" = true ∧
    init_dotfile [("/proj/.looper.yaml", "old-content")]
        "/proj/.looper.yaml" "cfg.yaml" =
      .ok (false, [("/proj/.looper.yaml", "old-content")]) :=
  ⟨by decide,
    (init_dotfile_no_overwrite [("/proj/.looper.yaml", "old-content")]
      "/proj/.looper.yaml" "cfg.yaml").1 (by decide)⟩

end Looper
